import Mathlib

/-!
Shallow embedding of the STIL entry parser of hvsclib (src/lib/stil.c) and
proofs about it.  C strings are modelled as `List Char` (NUL-free, as produced
by the text file reader), the entry buffer as `List (List Char)`, and machine
integers as `Int` (the values involved are tune numbers and second counts,
far below any overflow boundary).  Heap allocation always succeeds in the
plain model; a second, allocation-instrumented model of the same code is
given further below for the out-of-memory claims.
-/

namespace Hvsc

/-- Model of the C `isspace` predicate for the ASCII range: space and the
control characters 9..13 (tab, newline, vertical tab, form feed, carriage
return). -/
def cIsSpace (c : Char) : Bool :=
  c.toNat = 32 || (9 ≤ c.toNat && c.toNat ≤ 13)

/-- Model of the C `isdigit` predicate: the characters `0` .. `9`. -/
def cIsDigit (c : Char) : Bool :=
  48 ≤ c.toNat && c.toNat ≤ 57

/-- Model of C `strncmp s t n`.  A list end plays the role of the NUL
terminator; the lists themselves are NUL-free, so comparison continues
exactly while characters are equal, as in C. -/
def cStrncmp : List Char → List Char → Nat → Int
  | _, _, 0 => 0
  | [], [], _ => 0
  | [], b :: _, _ => -(b.toNat : Int)
  | a :: _, [], _ => (a.toNat : Int)
  | a :: as, b :: bs, n + 1 =>
      if a = b then cStrncmp as bs n else (a.toNat : Int) - (b.toNat : Int)

/-- Accumulating digit scan of C `strtol`, base 10 (overflow clamping is not
modelled; the parsed values in scope are small tune numbers). -/
def strtolAcc : Int → List Char → Int × List Char
  | acc, [] => (acc, [])
  | acc, c :: cs =>
      if cIsDigit c then strtolAcc (acc * 10 + ((c.toNat : Int) - 48)) cs
      else (acc, c :: cs)

/-- Model of C `strtol(s, &endptr, 10)`: skip whitespace, optional sign, then
digits; with no digits at all the result is 0 and endptr is the original
string. -/
def strtol10 (s : List Char) : Int × List Char :=
  let t := s.dropWhile cIsSpace
  let su : Bool × List Char :=
    match t with
    | '-' :: r => (true, r)
    | '+' :: r => (false, r)
    | r => (false, r)
  match su.2 with
  | c :: cs =>
      if cIsDigit c then
        let vr := strtolAcc 0 (c :: cs)
        (if su.1 then -vr.1 else vr.1, vr.2)
      else (0, s)
  | [] => (0, s)

/-- Field type constant from hvsc_defs.h. -/
def HVSC_FIELD_INVALID : Int := -1
/-- Field type constant from hvsc_defs.h. -/
def HVSC_FIELD_ARTIST : Int := 0
/-- Field type constant from hvsc_defs.h. -/
def HVSC_FIELD_AUTHOR : Int := 1
/-- Field type constant from hvsc_defs.h. -/
def HVSC_FIELD_BUG : Int := 2
/-- Field type constant from hvsc_defs.h. -/
def HVSC_FIELD_COMMENT : Int := 3
/-- Field type constant from hvsc_defs.h. -/
def HVSC_FIELD_NAME : Int := 4
/-- Field type constant from hvsc_defs.h. -/
def HVSC_FIELD_TITLE : Int := 5

/-- The list of field identifiers from stil.c, in order. -/
def field_identifiers : List (List Char) :=
  [" ARTIST:".toList,
   " AUTHOR:".toList,
   "    BUG:".toList,
   "COMMENT:".toList,
   "   NAME:".toList,
   "  TITLE:".toList]

/-- Iteration of `stil_get_field_type` over the identifier list, carrying the
current index. -/
def fieldTypeGo : List (List Char) → Int → List Char → Int
  | [], _, _ => HVSC_FIELD_INVALID
  | t :: ts, i, s =>
      if cStrncmp s t 8 = 0 then i else fieldTypeGo ts (i + 1) s

/-- Model of `stil_get_field_type`: first identifier whose first 8 characters
match the line wins; -1 (HVSC_FIELD_INVALID) when none matches. -/
def stil_get_field_type (s : List Char) : Int :=
  fieldTypeGo field_identifiers 0 s

/-- Model of `stil_parse_tune_number`: skip whitespace, expect `(#`, parse a
decimal number with strtol, require `)` at the end position; -1 otherwise. -/
def stil_parse_tune_number (s : List Char) : Int :=
  match s.dropWhile cIsSpace with
  | '(' :: '#' :: r =>
      let vr := strtol10 r
      match vr.2 with
      | ')' :: _ => vr.1
      | _ => -1
  | _ => -1

/-- STIL timestamp (hvsc_stil_timestamp_t): `ts_from` and `ts_to` in seconds,
-1 meaning absent. -/
structure hvsc_stil_timestamp_t where
  ts_from : Int
  ts_to : Int
deriving DecidableEq, Repr

/-- Base-10 value of a digit string, most significant first. -/
def digitsVal (l : List Char) : Int :=
  l.foldl (fun acc c => acc * 10 + ((c.toNat : Int) - 48)) 0

/-- Modelled from the spec: the helper `hvsc_parse_simple_timestamp` lives in
base.c, which is not among the sources; per section 4.5 of the spec the
grammar is `H:MM` — one or more digits, a colon, exactly two digits — the
value is `H*60+MM` seconds with the rest of the string returned, and any
deviation yields a negative result. -/
def hvsc_parse_simple_timestamp (s : List Char) : Int × List Char :=
  if s.takeWhile cIsDigit = [] then (-1, s)
  else
    match s.dropWhile cIsDigit with
    | ':' :: m1 :: m2 :: r =>
        if cIsDigit m1 && cIsDigit m2 then
          (digitsVal (s.takeWhile cIsDigit) * 60
             + ((m1.toNat : Int) - 48) * 10 + ((m2.toNat : Int) - 48), r)
        else (-1, s)
    | _ => (-1, s)

/-- The character a C string pointer reads: head of the list, or NUL at the
end. -/
def listHeadChar (l : List Char) : Char :=
  match l with
  | [] => Char.ofNat 0
  | c :: _ => c

/-- Model of `stil_parse_timestamp`.  The C function writes through an in/out
pointer, so the incoming timestamp value is threaded through: on a failing
second half the already stored `ts_from` of the first half is kept. -/
def stil_parse_timestamp (s : List Char) (ts : hvsc_stil_timestamp_t) :
    Bool × hvsc_stil_timestamp_t × List Char :=
  let rp := hvsc_parse_simple_timestamp s
  if rp.1 < 0 then (false, ts, rp.2)
  else
    let ts1 : hvsc_stil_timestamp_t := { ts with ts_from := rp.1 }
    if listHeadChar rp.2 ≠ '-' then (true, { ts1 with ts_to := -1 }, rp.2)
    else
      let rp2 := hvsc_parse_simple_timestamp (rp.2.drop 1)
      if rp2.1 < 0 then (false, ts1, rp2.2)
      else (true, { ts1 with ts_to := rp2.1 }, rp2.2)

/-- Nine literal space characters, the continuation test string of
`stil_parse_comment`. -/
def nineSpaces : List Char := "         ".toList

/-- Continuation loop of `stil_parse_comment`: merge every following line
that starts with nine spaces, keeping its text from the 9th character on
(one separating space retained), and stop at the first other line, which is
returned unconsumed. -/
def stil_comment_go : List Char → List (List Char) → List Char × List (List Char)
  | acc, [] => (acc, [])
  | acc, l :: ls =>
      if cStrncmp nineSpaces l 9 = 0 then stil_comment_go (acc ++ l.drop 8) ls
      else (acc, l :: ls)

/-- Model of `stil_parse_comment`: the first line contributes its text from
the 10th character on, then the continuation loop runs over the following
lines. -/
def stil_parse_comment (line : List Char) (rest : List (List Char)) :
    List Char × List (List Char) :=
  stil_comment_go (line.drop 9) rest

/-- Index of the rightmost opening parenthesis of a list, if any. -/
def rfindParenGo : List Char → Nat → Option Nat → Option Nat
  | [], _, acc => acc
  | c :: cs, i, acc => rfindParenGo cs (i + 1) (if c = '(' then some i else acc)

/-- Index of the rightmost opening parenthesis of a list, if any. -/
def rfindParen (l : List Char) : Option Nat := rfindParenGo l 0 none

/-- The TITLE branch of the main loop of `hvsc_stil_parse_entry`: when the
line ends in a closing parenthesis, the first 9 characters are dropped and a
backward scan looks for the rightmost `(`; a parenthesis at position 0 is
treated as not found and no timestamp is attempted, with no parenthesis at
all the scan runs off the front and the whole stripped line is fed to the
timestamp parse, and otherwise the text after the parenthesis is.  When the
line does not end in a closing parenthesis nothing is stripped.  The C scan
starts 9 bytes past the terminator of the advanced line (reading heap bytes
past the string); the model assumes those out-of-bounds bytes contain no `(`
and starts at the last real character, which gives the same scan result. -/
def title_line_process (line : List Char) (ts : hvsc_stil_timestamp_t) :
    List Char × hvsc_stil_timestamp_t :=
  if 6 < line.length ∧ line.getLast? = some ')' then
    let stripped := line.drop 9
    match rfindParen stripped with
    | some 0 => (stripped, ts)
    | some j =>
        let r := stil_parse_timestamp (stripped.drop (j + 1)) ts
        (stripped, r.2.1)
    | none =>
        let r := stil_parse_timestamp stripped ts
        (stripped, r.2.1)
  else (line, ts)

/-- STIL field (hvsc_stil_field_t): type code, text, timestamp. -/
structure hvsc_stil_field_t where
  ftype : Int
  text : List Char
  timestamp : hvsc_stil_timestamp_t
deriving DecidableEq, Repr

/-- Model of `stil_field_new` (allocation always succeeds here). -/
def stil_field_new (ftype : Int) (text : List Char) (ts_from ts_to : Int) :
    hvsc_stil_field_t :=
  { ftype := ftype, text := text, timestamp := { ts_from := ts_from, ts_to := ts_to } }

/-- STIL block (hvsc_stil_block_t): tune number and fields in source order. -/
structure hvsc_stil_block_t where
  tune : Int
  fields : List hvsc_stil_field_t
deriving DecidableEq, Repr

/-- Model of `stil_block_add_field`: append at the end. -/
def stil_block_add_field (b : hvsc_stil_block_t) (f : hvsc_stil_field_t) :
    hvsc_stil_block_t :=
  { b with fields := b.fields ++ [f] }

/-- Parser state (hvsc_stil_parser_state_t together with the document
members of the handle): current tune, working block, SID-wide comment and
the finished blocks of the handle. -/
structure ParserState where
  tune : Int
  block : hvsc_stil_block_t
  sid_comment : Option (List Char)
  blocks : List hvsc_stil_block_t
deriving DecidableEq, Repr

/-- The document-relevant members of hvsc_stil_t after a successful parse. -/
structure hvsc_stil_doc where
  sid_comment : Option (List Char)
  blocks : List hvsc_stil_block_t
deriving DecidableEq, Repr

/-- One iteration of the main loop of `hvsc_stil_parse_entry` on the current
line: a tune marker updates the tune and, only when the new number exceeds 1,
finalizes the working block and starts a fresh one tagged with that number; a
comment line merges its continuations and becomes either the SID-wide
comment (tune 0, promoting the block to tune 1) or a comment field; any
other line becomes a field when the tune is positive and otherwise only
promotes the block to tune 1.  Returns the new state and the lines still to
be processed. -/
def stil_step (st : ParserState) (line : List Char) (rest : List (List Char)) :
    ParserState × List (List Char) :=
  let num := stil_parse_tune_number line
  if 0 < num then
    if 1 < num then
      ({ tune := num,
         block := { tune := num, fields := [] },
         sid_comment := st.sid_comment,
         blocks := st.blocks ++ [st.block] }, rest)
    else
      ({ st with tune := num }, rest)
  else
    let ftype := stil_get_field_type line
    if ftype = HVSC_FIELD_COMMENT then
      let pc := stil_parse_comment line rest
      if st.tune = 0 then
        ({ st with sid_comment := some pc.1, tune := 1,
                   block := { st.block with tune := 1 } }, pc.2)
      else
        let f := stil_field_new ftype pc.1 (-1) (-1)
        ({ st with block := stil_block_add_field st.block f }, pc.2)
    else
      let tp := if ftype = HVSC_FIELD_TITLE then title_line_process line ⟨-1, -1⟩
                else (line.drop 9, ⟨-1, -1⟩)
      if 0 < st.tune then
        let f := stil_field_new ftype tp.1 tp.2.ts_from tp.2.ts_to
        ({ st with block := stil_block_add_field st.block f }, rest)
      else
        ({ st with tune := 1, block := { st.block with tune := 1 } }, rest)

theorem stil_comment_go_length (acc : List Char) (ls : List (List Char)) :
    (stil_comment_go acc ls).2.length ≤ ls.length := by
  induction ls generalizing acc with
  | nil => simp [stil_comment_go]
  | cons l ls ih =>
      by_cases h : cStrncmp nineSpaces l 9 = 0
      · simp only [stil_comment_go, h, if_pos]
        exact le_trans (ih _) (Nat.le_succ _)
      · simp [stil_comment_go, h]

theorem stil_step_rest_length (st : ParserState) (line : List Char)
    (rest : List (List Char)) :
    (stil_step st line rest).2.length ≤ rest.length := by
  by_cases h0 : 0 < stil_parse_tune_number line
  · by_cases h1 : 1 < stil_parse_tune_number line <;> simp [stil_step, h0, h1]
  · by_cases hc : stil_get_field_type line = HVSC_FIELD_COMMENT
    · by_cases ht : st.tune = 0 <;>
        simpa [stil_step, h0, hc, ht, stil_parse_comment] using
          stil_comment_go_length (line.drop 9) rest
    · by_cases ht : 0 < st.tune <;> simp [stil_step, h0, hc, ht]

/-- The main loop of `hvsc_stil_parse_entry` over the entry buffer, with a
structural fuel argument so that concrete runs reduce; every step consumes at
least one line, so fuel equal to the number of lines always suffices (see
`stil_loopF_fuel` and `stil_loop_cons`). -/
def stil_loopF : Nat → ParserState → List (List Char) → ParserState
  | _, st, [] => st
  | 0, st, _ :: _ => st
  | fuel + 1, st, line :: rest =>
      stil_loopF fuel (stil_step st line rest).1 (stil_step st line rest).2

/-- The main loop of `hvsc_stil_parse_entry` over the entry buffer. -/
def stil_loop (st : ParserState) (ls : List (List Char)) : ParserState :=
  stil_loopF ls.length st ls

theorem stil_loopF_nil (fuel : Nat) (st : ParserState) :
    stil_loopF fuel st [] = st := by
  cases fuel <;> rfl

theorem stil_loopF_fuel (fuel₁ : Nat) :
    ∀ (fuel₂ : Nat) (st : ParserState) (ls : List (List Char)),
      ls.length ≤ fuel₁ → ls.length ≤ fuel₂ →
      stil_loopF fuel₁ st ls = stil_loopF fuel₂ st ls := by
  induction fuel₁ with
  | zero =>
      intro fuel₂ st ls h₁ _
      match ls with
      | [] => rw [stil_loopF_nil, stil_loopF_nil]
      | _ :: _ => simp at h₁
  | succ f₁ ih =>
      intro fuel₂ st ls h₁ h₂
      match ls, fuel₂ with
      | [], f₂ => rw [stil_loopF_nil, stil_loopF_nil]
      | _ :: _, 0 => simp at h₂
      | line :: rest, f₂ + 1 =>
          simp only [stil_loopF]
          have hr := stil_step_rest_length st line rest
          have h₁' : (stil_step st line rest).2.length ≤ f₁ :=
            le_trans hr (Nat.succ_le_succ_iff.mp h₁)
          have h₂' : (stil_step st line rest).2.length ≤ f₂ :=
            le_trans hr (Nat.succ_le_succ_iff.mp h₂)
          exact ih f₂ _ _ h₁' h₂'

theorem stil_loop_nil (st : ParserState) : stil_loop st [] = st := rfl

theorem stil_loop_cons (st : ParserState) (line : List Char)
    (rest : List (List Char)) :
    stil_loop st (line :: rest) =
      stil_loop (stil_step st line rest).1 (stil_step st line rest).2 := by
  unfold stil_loop
  simp only [List.length_cons, stil_loopF]
  exact stil_loopF_fuel rest.length _ _ _ (stil_step_rest_length st line rest) le_rfl

/-- Model of `hvsc_stil_parse_entry`: run the loop from the initial state
(tune 0, one fresh working block) over the entry buffer, then append the
working block to the finished blocks. -/
def hvsc_stil_parse_entry (entry : List (List Char)) : hvsc_stil_doc :=
  let st := stil_loop
    { tune := 0, block := { tune := 0, fields := [] },
      sid_comment := none, blocks := [] } entry
  { sid_comment := st.sid_comment, blocks := st.blocks ++ [st.block] }

/-!  General helper lemmas about the lexical subfunctions. -/

theorem takeWhile_append_all (p : Char → Bool) (l₁ l₂ : List Char)
    (h1 : ∀ c ∈ l₁, p c = true) (h2 : ∀ c ∈ l₂.take 1, p c = false) :
    (l₁ ++ l₂).takeWhile p = l₁ ∧ (l₁ ++ l₂).dropWhile p = l₂ := by
  induction l₁ with
  | nil =>
      cases l₂ with
      | nil => simp
      | cons c cs =>
          have := h2 c (by simp)
          simp [List.takeWhile, List.dropWhile, this]
  | cons a as ih =>
      have ha : p a = true := h1 a (by simp)
      have ih' := ih (fun c hc => h1 c (by simp [hc]))
      simp [List.takeWhile, List.dropWhile, ha, ih'.1, ih'.2]

theorem digitsVal_nonneg (l : List Char) (h : ∀ c ∈ l, cIsDigit c = true) :
    0 ≤ digitsVal l := by
  suffices H : ∀ acc : Int, 0 ≤ acc →
      0 ≤ l.foldl (fun acc c => acc * 10 + ((c.toNat : Int) - 48)) acc by
    exact H 0 le_rfl
  induction l with
  | nil => intro acc hacc; simpa using hacc
  | cons c cs ih =>
      intro acc hacc
      have hc : cIsDigit c = true := h c (by simp)
      have h48 : (48 : Int) ≤ (c.toNat : Int) := by
        have := (Bool.and_eq_true _ _ |>.mp hc).1
        have : 48 ≤ c.toNat := by simpa [cIsDigit] using this
        exact_mod_cast this
      have : 0 ≤ acc * 10 + ((c.toNat : Int) - 48) := by nlinarith
      simpa [List.foldl] using ih (fun d hd => h d (by simp [hd])) _ this

theorem stil_comment_go_spec (conts : List (List Char)) :
    ∀ (acc : List Char) (rest : List (List Char)),
      (∀ l ∈ conts, cStrncmp nineSpaces l 9 = 0) →
      (∀ l ∈ rest.take 1, cStrncmp nineSpaces l 9 ≠ 0) →
      stil_comment_go acc (conts ++ rest) =
        (acc ++ (conts.map (fun l => l.drop 8)).flatten, rest) := by
  induction conts with
  | nil =>
      intro acc rest _ hr
      cases rest with
      | nil => simp [stil_comment_go]
      | cons l ls =>
          have := hr l (by simp)
          simp [stil_comment_go, this]
  | cons c cs ih =>
      intro acc rest hc hr
      have h0 : cStrncmp nineSpaces c 9 = 0 := hc c (by simp)
      have ih' := ih (acc ++ c.drop 8) rest (fun l hl => hc l (by simp [hl])) hr
      simp [List.cons_append, stil_comment_go, h0, ih', List.append_assoc]

/-!  Branch lemmas for one step of the main parse loop. -/

theorem stil_step_marker (st : ParserState) (line : List Char)
    (rest : List (List Char)) (h : 0 < stil_parse_tune_number line) :
    stil_step st line rest =
      (if 1 < stil_parse_tune_number line then
        { tune := stil_parse_tune_number line,
          block := { tune := stil_parse_tune_number line, fields := [] },
          sid_comment := st.sid_comment,
          blocks := st.blocks ++ [st.block] }
       else { st with tune := stil_parse_tune_number line }, rest) := by
  by_cases h1 : 1 < stil_parse_tune_number line <;> simp [stil_step, h, h1]

theorem stil_step_comment0 (st : ParserState) (line : List Char)
    (rest : List (List Char)) (hnum : stil_parse_tune_number line ≤ 0)
    (hc : stil_get_field_type line = HVSC_FIELD_COMMENT) (ht : st.tune = 0) :
    stil_step st line rest =
      ({ st with sid_comment := some (stil_parse_comment line rest).1,
                 tune := 1, block := { st.block with tune := 1 } },
       (stil_parse_comment line rest).2) := by
  simp [stil_step, not_lt.mpr hnum, hc, ht]

theorem stil_step_commentPos (st : ParserState) (line : List Char)
    (rest : List (List Char)) (hnum : stil_parse_tune_number line ≤ 0)
    (hc : stil_get_field_type line = HVSC_FIELD_COMMENT) (ht : 0 < st.tune) :
    stil_step st line rest =
      ({ st with block := stil_block_add_field st.block (stil_field_new HVSC_FIELD_COMMENT (stil_parse_comment line rest).1 (-1) (-1)) },
       (stil_parse_comment line rest).2) := by
  have ht' : ¬ st.tune = 0 := by omega
  simp [stil_step, not_lt.mpr hnum, hc, ht']

/-- A line that is neither a tune marker nor comment-tagged: the field the
main loop builds for it (type, text after the TITLE special case or the
9-character strip, timestamp from the TITLE scan). -/
def lineField (l : List Char) : hvsc_stil_field_t :=
  let ftype := stil_get_field_type l
  let tp := if ftype = HVSC_FIELD_TITLE then title_line_process l ⟨-1, -1⟩
            else (l.drop 9, ⟨-1, -1⟩)
  stil_field_new ftype tp.1 tp.2.ts_from tp.2.ts_to

/-- A line that is neither a tune marker nor comment-tagged. -/
def plainFieldLine (l : List Char) : Prop :=
  stil_parse_tune_number l ≤ 0 ∧ stil_get_field_type l ≠ HVSC_FIELD_COMMENT

instance (l : List Char) : Decidable (plainFieldLine l) := by
  unfold plainFieldLine; infer_instance

theorem stil_step_plain (st : ParserState) (line : List Char)
    (rest : List (List Char)) (hp : plainFieldLine line) (ht : 0 < st.tune) :
    stil_step st line rest =
      ({ st with block := stil_block_add_field st.block (lineField line) }, rest) := by
  simp [stil_step, not_lt.mpr hp.1, hp.2, ht, lineField]

theorem stil_step_promote (st : ParserState) (line : List Char)
    (rest : List (List Char)) (hp : plainFieldLine line) (ht : st.tune = 0) :
    stil_step st line rest =
      ({ st with tune := 1, block := { st.block with tune := 1 } }, rest) := by
  have ht' : ¬ 0 < st.tune := by omega
  simp [stil_step, not_lt.mpr hp.1, hp.2, ht']

theorem stil_loop_plain (fs : List (List Char)) :
    ∀ (st : ParserState) (rest : List (List Char)),
      (∀ l ∈ fs, plainFieldLine l) → 0 < st.tune →
      stil_loop st (fs ++ rest) =
        stil_loop { st with block :=
          { st.block with fields := st.block.fields ++ fs.map lineField } } rest := by
  induction fs with
  | nil => intro st rest _ _; simp
  | cons l ls ih =>
      intro st rest hp ht
      have hl : plainFieldLine l := hp l (by simp)
      rw [List.cons_append, stil_loop_cons,
        stil_step_plain st l (ls ++ rest) hl ht]
      rw [ih _ rest (fun x hx => hp x (by simp [hx])) (by simpa using ht)]
      simp [stil_block_add_field, List.append_assoc]

/-!  Claims. -/

/-- C2, counterexample to the claim as stated: a `(#1)` marker seen in the
preamble does not re-tag the working block (the final block keeps tune
number 0, not 1), and a repeated `(#2)` marker finalizes the working block
even though the tune number does not differ (three blocks result, where the
claim predicts two). -/
theorem C2_marker_counterexample :
    (hvsc_stil_parse_entry ["(#1)".toList]).blocks.map hvsc_stil_block_t.tune = [0] ∧
    (hvsc_stil_parse_entry ["(#2)".toList, " ARTIST: X".toList, "(#2)".toList]).blocks.map
        hvsc_stil_block_t.tune = [0, 2, 2] := by
  decide

/-- C2 (amended): on a tune-marker line `(#N)` with N positive the parser
tune becomes N, and: when N exceeds 1 the working block is always finalized
(copied into the document block list) and a fresh working block tagged N
begins, regardless of whether the working block already belongs to tune N;
when N equals 1 no block is finalized and the same working block is reused
without being re-tagged, in the preamble keeping tune number 0. -/
theorem C2_marker_step_amended (st : ParserState) (line : List Char)
    (rest : List (List Char)) (num : Int)
    (hn : stil_parse_tune_number line = num) (h : 0 < num) :
    stil_step st line rest =
      (if 1 < num then
        { tune := num, block := { tune := num, fields := [] },
          sid_comment := st.sid_comment, blocks := st.blocks ++ [st.block] }
       else { st with tune := num }, rest) := by
  subst hn
  exact stil_step_marker st line rest h

/-- Witness for C2 (amended) at a concrete state and marker line. -/
theorem C2_marker_step_amended_w :
    stil_parse_tune_number "(#3)".toList = 3 ∧
    stil_step
        { tune := 2, block := { tune := 2, fields := [stil_field_new 0 "X".toList (-1) (-1)] },
          sid_comment := none, blocks := [] } "(#3)".toList [] =
      ({ tune := 3, block := { tune := 3, fields := [] }, sid_comment := none,
         blocks := [{ tune := 2, fields := [stil_field_new 0 "X".toList (-1) (-1)] }] }, []) :=
  ⟨by decide,
   (C2_marker_step_amended _ _ _ 3 (by decide) (by decide)).trans (by decide)⟩

/-- C3: a line that would create a field (neither a tune marker nor
comment-tagged) seen while the parser is still in the preamble (tune 0,
working block tune 0) stores no field, leaves the finished blocks untouched,
promotes both the parser tune and the working block tune to 1, and consumes
nothing beyond the line itself. -/
theorem C3_tune0_no_field_promote (st : ParserState) (line : List Char)
    (rest : List (List Char)) (hnum : stil_parse_tune_number line ≤ 0)
    (hcm : stil_get_field_type line ≠ HVSC_FIELD_COMMENT)
    (ht : st.tune = 0) (_hb : st.block.tune = 0) :
    (stil_step st line rest).1.tune = 1 ∧
    (stil_step st line rest).1.block.tune = 1 ∧
    (stil_step st line rest).1.block.fields = st.block.fields ∧
    (stil_step st line rest).1.blocks = st.blocks ∧
    (stil_step st line rest).2 = rest := by
  rw [stil_step_promote st line rest ⟨hnum, hcm⟩ ht]
  simp

/-- Witness for C3 at a concrete preamble state and an Author-tagged line. -/
theorem C3_tune0_no_field_promote_w :
    stil_parse_tune_number " AUTHOR: A".toList ≤ 0 ∧
    stil_get_field_type " AUTHOR: A".toList ≠ HVSC_FIELD_COMMENT ∧
    ((stil_step { tune := 0, block := { tune := 0, fields := [] }, sid_comment := none, blocks := [] } " AUTHOR: A".toList []).1.tune = 1 ∧
     (stil_step { tune := 0, block := { tune := 0, fields := [] }, sid_comment := none, blocks := [] } " AUTHOR: A".toList []).1.block.tune = 1 ∧
     (stil_step { tune := 0, block := { tune := 0, fields := [] }, sid_comment := none, blocks := [] } " AUTHOR: A".toList []).1.block.fields =
       ({ tune := 0, fields := [] } : hvsc_stil_block_t).fields ∧
     (stil_step { tune := 0, block := { tune := 0, fields := [] }, sid_comment := none, blocks := [] } " AUTHOR: A".toList []).1.blocks = [] ∧
     (stil_step { tune := 0, block := { tune := 0, fields := [] }, sid_comment := none, blocks := [] } " AUTHOR: A".toList []).2 = []) :=
  ⟨by decide, by decide,
   C3_tune0_no_field_promote _ _ _ (by decide) (by decide) rfl rfl⟩

/-- C4: a comment-tagged line in the preamble stores the merged comment text
as the SID-wide comment, creates no field, and promotes the working block to
tune 1; a comment-tagged line inside a tune instead appends a comment field
holding the merged text to the working block.  In both cases scanning
resumes at the first line the comment accumulation did not consume. -/
theorem C4_preamble_comment (st : ParserState) (line : List Char)
    (rest : List (List Char)) (hnum : stil_parse_tune_number line ≤ 0)
    (hc : stil_get_field_type line = HVSC_FIELD_COMMENT) :
    (st.tune = 0 → stil_step st line rest =
      ({ st with sid_comment := some (stil_parse_comment line rest).1, tune := 1,
                 block := { st.block with tune := 1 } },
       (stil_parse_comment line rest).2)) ∧
    (0 < st.tune → stil_step st line rest =
      ({ st with block := stil_block_add_field st.block (stil_field_new HVSC_FIELD_COMMENT (stil_parse_comment line rest).1 (-1) (-1)) },
       (stil_parse_comment line rest).2)) :=
  ⟨fun ht => stil_step_comment0 st line rest hnum hc ht,
   fun ht => stil_step_commentPos st line rest hnum hc ht⟩

/-- Witness for C4 at a concrete preamble state and comment line. -/
theorem C4_preamble_comment_w :
    stil_parse_tune_number "COMMENT: Hi".toList ≤ 0 ∧
    stil_get_field_type "COMMENT: Hi".toList = HVSC_FIELD_COMMENT ∧
    stil_step { tune := 0, block := { tune := 0, fields := [] }, sid_comment := none, blocks := [] } "COMMENT: Hi".toList [] =
      ({ tune := 1, block := { tune := 1, fields := [] },
         sid_comment := some "Hi".toList, blocks := [] }, []) :=
  ⟨by decide, by decide,
   ((C4_preamble_comment _ _ _ (by decide) (by decide)).1 rfl).trans (by decide)⟩

/-- C6: comment accumulation returns the tagged line content (from the 10th
character) followed by, for each immediately following line with a nine
space indent, its text from the 9th character on (one separating space kept,
no newline inserted); it stops at the first line without the indent, or at
the end of the buffer, leaving that line unconsumed. -/
theorem C6_comment_merge (line : List Char) (conts rest : List (List Char))
    (_htag : stil_get_field_type line = HVSC_FIELD_COMMENT)
    (hc : ∀ l ∈ conts, cStrncmp nineSpaces l 9 = 0)
    (hr : ∀ l ∈ rest.take 1, cStrncmp nineSpaces l 9 ≠ 0) :
    stil_parse_comment line (conts ++ rest) =
      (line.drop 9 ++ (conts.map (fun l => l.drop 8)).flatten, rest) :=
  stil_comment_go_spec conts (line.drop 9) rest hc hr

/-- Witness for C6: a comment line with two indented continuations and one
stopper line. -/
theorem C6_comment_merge_w :
    stil_get_field_type "COMMENT: Hello".toList = HVSC_FIELD_COMMENT ∧
    (∀ l ∈ ["         world,".toList, "         again".toList],
       cStrncmp nineSpaces l 9 = 0) ∧
    (∀ l ∈ [" ARTIST: X".toList].take 1, cStrncmp nineSpaces l 9 ≠ 0) ∧
    stil_parse_comment "COMMENT: Hello".toList
        (["         world,".toList, "         again".toList] ++ [" ARTIST: X".toList]) =
      ("Hello world, again".toList, [" ARTIST: X".toList]) :=
  ⟨by decide, by decide, by decide,
   (C6_comment_merge "COMMENT: Hello".toList
      ["         world,".toList, "         again".toList] [" ARTIST: X".toList]
      (by decide) (by decide) (by decide)).trans (by decide)⟩

/-- C10: a line that is neither a tune marker nor tagged with a known field
identifier, seen while the tune is at least 1, is appended to the working
block as a new field of type HVSC_FIELD_INVALID whose text is the line
without its first 9 characters; nothing else in the state changes and the
line is neither dropped nor merged into the previous field. -/
theorem C10_invalid_field_append (st : ParserState) (line : List Char)
    (rest : List (List Char)) (hnum : stil_parse_tune_number line ≤ 0)
    (hf : stil_get_field_type line = HVSC_FIELD_INVALID) (ht : 0 < st.tune) :
    stil_step st line rest =
      ({ st with block := stil_block_add_field st.block (stil_field_new HVSC_FIELD_INVALID (line.drop 9) (-1) (-1)) },
       rest) := by
  have hp : plainFieldLine line := ⟨hnum, by rw [hf]; decide⟩
  rw [stil_step_plain st line rest hp ht]
  simp [lineField, hf, HVSC_FIELD_INVALID, HVSC_FIELD_TITLE, stil_field_new]

/-- Witness for C10 at a concrete state and an unrecognized line. -/
theorem C10_invalid_field_append_w :
    stil_parse_tune_number "stray line".toList ≤ 0 ∧
    stil_get_field_type "stray line".toList = HVSC_FIELD_INVALID ∧
    stil_step { tune := 1, block := { tune := 1, fields := [] }, sid_comment := none, blocks := [] } "stray line".toList [] =
      ({ tune := 1,
         block := { tune := 1, fields := [stil_field_new HVSC_FIELD_INVALID "e".toList (-1) (-1)] },
         sid_comment := none, blocks := [] }, []) :=
  ⟨by decide, by decide,
   (C10_invalid_field_append _ _ _ (by decide) (by decide) (by decide)).trans (by decide)⟩

/-!  Lemmas about the timestamp grammar. -/

theorem simple_timestamp_eq (hd : List Char) (m1 m2 : Char) (r : List Char)
    (hne : hd ≠ []) (hdig : ∀ c ∈ hd, cIsDigit c = true)
    (h1 : cIsDigit m1 = true) (h2 : cIsDigit m2 = true) :
    hvsc_parse_simple_timestamp (hd ++ ':' :: m1 :: m2 :: r) =
      (digitsVal hd * 60 + ((m1.toNat : Int) - 48) * 10 + ((m2.toNat : Int) - 48), r) := by
  have hsp := takeWhile_append_all cIsDigit hd (':' :: m1 :: m2 :: r) hdig
    (by intro c hc; simp at hc; subst hc; decide)
  simp only [hvsc_parse_simple_timestamp, hsp.1, hsp.2, if_neg hne, h1, h2,
    Bool.and_self, if_pos]

theorem simple_timestamp_val_nonneg (hd : List Char) (m1 m2 : Char)
    (hdig : ∀ c ∈ hd, cIsDigit c = true)
    (h1 : cIsDigit m1 = true) (h2 : cIsDigit m2 = true) :
    0 ≤ digitsVal hd * 60 + ((m1.toNat : Int) - 48) * 10 + ((m2.toNat : Int) - 48) := by
  have hdv : 0 ≤ digitsVal hd := digitsVal_nonneg hd hdig
  have hm1 : 48 ≤ m1.toNat := by simp [cIsDigit] at h1; omega
  have hm2 : 48 ≤ m2.toNat := by simp [cIsDigit] at h2; omega
  have hm1' : (48 : Int) ≤ (m1.toNat : Int) := by exact_mod_cast hm1
  have hm2' : (48 : Int) ≤ (m2.toNat : Int) := by exact_mod_cast hm2
  nlinarith

/-- C7: the timestamp parse on `H:MM` (digits, colon, two digits, not
followed by a dash) succeeds with `from` = H*60+MM seconds and `to` = -1; on
`H:MM-H:MM` it succeeds with both values; a deviation in the first half, or
a dash followed by a deviation in the second half, returns failure. -/
theorem C7_timestamp_grammar :
    (∀ (hd : List Char) (m1 m2 : Char) (r : List Char) (ts : hvsc_stil_timestamp_t),
      hd ≠ [] → (∀ c ∈ hd, cIsDigit c = true) → cIsDigit m1 = true → cIsDigit m2 = true →
      (∀ c ∈ r.take 1, c ≠ '-') →
      stil_parse_timestamp (hd ++ ':' :: m1 :: m2 :: r) ts =
        (true, ⟨digitsVal hd * 60 + ((m1.toNat : Int) - 48) * 10 + ((m2.toNat : Int) - 48), -1⟩, r)) ∧
    (∀ (hd : List Char) (m1 m2 : Char) (hd2 : List Char) (n1 n2 : Char)
       (r : List Char) (ts : hvsc_stil_timestamp_t),
      hd ≠ [] → hd2 ≠ [] → (∀ c ∈ hd, cIsDigit c = true) → (∀ c ∈ hd2, cIsDigit c = true) →
      cIsDigit m1 = true → cIsDigit m2 = true → cIsDigit n1 = true → cIsDigit n2 = true →
      stil_parse_timestamp (hd ++ ':' :: m1 :: m2 :: '-' :: (hd2 ++ ':' :: n1 :: n2 :: r)) ts =
        (true, ⟨digitsVal hd * 60 + ((m1.toNat : Int) - 48) * 10 + ((m2.toNat : Int) - 48),
                digitsVal hd2 * 60 + ((n1.toNat : Int) - 48) * 10 + ((n2.toNat : Int) - 48)⟩, r)) ∧
    (∀ (s : List Char) (ts : hvsc_stil_timestamp_t),
      (hvsc_parse_simple_timestamp s).1 < 0 → (stil_parse_timestamp s ts).1 = false) ∧
    (∀ (s : List Char) (ts : hvsc_stil_timestamp_t),
      0 ≤ (hvsc_parse_simple_timestamp s).1 →
      listHeadChar (hvsc_parse_simple_timestamp s).2 = '-' →
      (hvsc_parse_simple_timestamp ((hvsc_parse_simple_timestamp s).2.drop 1)).1 < 0 →
      (stil_parse_timestamp s ts).1 = false) := by
  refine ⟨?_, ?_, ?_, ?_⟩
  · intro hd m1 m2 r ts hne hdig h1 h2 hr
    have he := simple_timestamp_eq hd m1 m2 r hne hdig h1 h2
    have hv := simple_timestamp_val_nonneg hd m1 m2 hdig h1 h2
    have hhead : listHeadChar r ≠ '-' := by
      cases r with
      | nil => decide
      | cons c cs =>
          have := hr c (by simp)
          simpa [listHeadChar] using this
    simp [stil_parse_timestamp, he, not_lt.mpr hv, hhead]
  · intro hd m1 m2 hd2 n1 n2 r ts hne hne2 hdig hdig2 h1 h2 h3 h4
    have he := simple_timestamp_eq hd m1 m2 ('-' :: (hd2 ++ ':' :: n1 :: n2 :: r)) hne hdig h1 h2
    have he2 := simple_timestamp_eq hd2 n1 n2 r hne2 hdig2 h3 h4
    have hv := simple_timestamp_val_nonneg hd m1 m2 hdig h1 h2
    have hv2 := simple_timestamp_val_nonneg hd2 n1 n2 hdig2 h3 h4
    simp [stil_parse_timestamp, he, he2, not_lt.mpr hv, not_lt.mpr hv2, listHeadChar]
  · intro s ts h
    simp [stil_parse_timestamp, h]
  · intro s ts h0 hh h2
    rw [List.drop_one] at h2
    simp [stil_parse_timestamp, not_lt.mpr h0, hh, h2]

/-- Witness for C7: the two worked examples of the spec and the failing
example, all obtained from the theorem. -/
theorem C7_timestamp_grammar_w :
    stil_parse_timestamp "1:30".toList ⟨-1, -1⟩ = (true, ⟨90, -1⟩, []) ∧
    stil_parse_timestamp "0:30-2:15".toList ⟨-1, -1⟩ = (true, ⟨30, 135⟩, []) ∧
    (stil_parse_timestamp "lyrics".toList ⟨-1, -1⟩).1 = false :=
  ⟨(C7_timestamp_grammar.1 ['1'] '3' '0' [] ⟨-1, -1⟩ (by decide) (by decide)
      (by decide) (by decide) (by decide)).trans (by decide),
   (C7_timestamp_grammar.2.1 ['0'] '3' '0' ['2'] '1' '5' [] ⟨-1, -1⟩ (by decide)
      (by decide) (by decide) (by decide) (by decide) (by decide) (by decide)
      (by decide)).trans (by decide),
   C7_timestamp_grammar.2.2.1 "lyrics".toList ⟨-1, -1⟩ (by decide)⟩

/-- C8, counterexample to the claim as stated: on a Title line whose
trailing parenthesized text parses as `H:MM` followed by a dash and a
malformed second half, the already stored `from` value leaks into the field
(timestamp from 90 and to -1, not -1 and -1 as the claim requires for every malformed
trailing parenthesis). -/
theorem C8_timestamp_leak_counterexample :
    (hvsc_stil_parse_entry [" AUTHOR: A".toList, "  TITLE: Song (1:30-x)".toList]).blocks =
      [{ tune := 1, fields := [stil_field_new HVSC_FIELD_TITLE "Song (1:30-x)".toList 90 (-1)] }] ∧
    stil_field_new HVSC_FIELD_TITLE "Song (1:30-x)".toList 90 (-1) ≠
      stil_field_new HVSC_FIELD_TITLE "Song (1:30-x)".toList (-1) (-1) := by
  constructor
  · decide
  · decide

/-- C8 (amended): a Title-tagged line never aborts the parse — one Title
field is appended and scanning continues — and a malformed trailing
timestamp is swallowed: when the enclosed text fails at its start the field
carries no timestamp (both members -1), and when its first half parses as
`H:MM` but the half after the dash is malformed the partial `from` value is
kept with `to` = -1. -/
theorem C8_title_malformed_timestamp_amended :
    (∀ (st : ParserState) (line : List Char) (rest : List (List Char)),
      0 < st.tune → stil_parse_tune_number line ≤ 0 →
      stil_get_field_type line = HVSC_FIELD_TITLE →
      stil_step st line rest =
        ({ st with block := stil_block_add_field st.block (lineField line) }, rest)) ∧
    (∀ s : List Char, (hvsc_parse_simple_timestamp s).1 < 0 →
      (stil_parse_timestamp s ⟨-1, -1⟩).2.1 = ⟨-1, -1⟩) ∧
    (∀ s : List Char, 0 ≤ (hvsc_parse_simple_timestamp s).1 →
      listHeadChar (hvsc_parse_simple_timestamp s).2 = '-' →
      (hvsc_parse_simple_timestamp ((hvsc_parse_simple_timestamp s).2.drop 1)).1 < 0 →
      (stil_parse_timestamp s ⟨-1, -1⟩).2.1 = ⟨(hvsc_parse_simple_timestamp s).1, -1⟩) := by
  refine ⟨?_, ?_, ?_⟩
  · intro st line rest ht hnum hty
    exact stil_step_plain st line rest ⟨hnum, by rw [hty]; decide⟩ ht
  · intro s h
    simp [stil_parse_timestamp, h]
  · intro s h0 hh h2
    rw [List.drop_one] at h2
    simp [stil_parse_timestamp, not_lt.mpr h0, hh, h2]

/-- Witness for C8 (amended): a Title line carrying `(lyrics)` appends one
field with no timestamp and the step consumes nothing extra. -/
theorem C8_title_malformed_timestamp_amended_w :
    (0 : Int) < 1 ∧
    stil_parse_tune_number "  TITLE: Song (lyrics)".toList ≤ 0 ∧
    stil_get_field_type "  TITLE: Song (lyrics)".toList = HVSC_FIELD_TITLE ∧
    stil_step { tune := 1, block := { tune := 1, fields := [] }, sid_comment := none, blocks := [] } "  TITLE: Song (lyrics)".toList [] =
      ({ tune := 1,
         block := { tune := 1, fields := [stil_field_new HVSC_FIELD_TITLE "Song (lyrics)".toList (-1) (-1)] },
         sid_comment := none, blocks := [] }, []) :=
  ⟨by decide, by decide, by decide,
   (C8_title_malformed_timestamp_amended.1 _ _ _ (by decide) (by decide)
      (by decide)).trans (by decide)⟩

/-- C5: the failing input of the claim — a Title-tagged line that does not
end in a closing parenthesis is stored with its 9-character tag prefix still
present (first conjunct), while one that does end in a closing parenthesis
is stripped (second conjunct); so the strip is not unconditional as the
claim and spec state. -/
theorem C5_title_tag_kept :
    (hvsc_stil_parse_entry [" AUTHOR: A".toList, "  TITLE: An Ordinary Song".toList]).blocks =
      [{ tune := 1, fields := [stil_field_new HVSC_FIELD_TITLE "  TITLE: An Ordinary Song".toList (-1) (-1)] }] ∧
    (hvsc_stil_parse_entry [" AUTHOR: A".toList, "  TITLE: Song (1:30)".toList]).blocks =
      [{ tune := 1, fields := [stil_field_new HVSC_FIELD_TITLE "Song (1:30)".toList 90 (-1)] }] := by
  constructor
  · decide
  · decide

/-- C1, counterexample to the claim as stated: with markers `(#1)` then
`(#2)` the two blocks carry tune numbers 0 and 2 (not 1 and 2), because a
`(#1)` marker never re-tags the preamble block; and with markers `(#2)` then
`(#1)` the result is an empty tune-0 block followed by one tune-2 block
holding all four fields — not two blocks in (2,1) order — because a `(#1)`
marker never finalizes the working block. -/
theorem C1_blocks_counterexample :
    (hvsc_stil_parse_entry ["(#1)".toList, " ARTIST: X".toList, "(#2)".toList, " ARTIST: Y".toList]).blocks.map
        hvsc_stil_block_t.tune = [0, 2] ∧
    (hvsc_stil_parse_entry ["(#2)".toList, " ARTIST: X".toList, "(#1)".toList, " ARTIST: Y".toList]).blocks =
      [{ tune := 0, fields := [] },
       { tune := 2, fields := [stil_field_new HVSC_FIELD_ARTIST "X".toList (-1) (-1),
                               stil_field_new HVSC_FIELD_ARTIST "Y".toList (-1) (-1)] }] := by
  constructor
  · decide
  · decide

/-- C1 (amended): an entry of marker `(#1)`, then field lines, then marker
`(#2)`, then field lines yields exactly two blocks, in encounter order and
holding the fields of the first and second section respectively, but with
tune numbers 0 and 2: the `(#1)` marker seen in the preamble re-tags
nothing, so the first block keeps tune number 0.  Blocks are appended in the
order they are finalized, never sorted. -/
theorem C1_blocks_encounter_order_amended (fs1 fs2 : List (List Char))
    (h1 : ∀ l ∈ fs1, plainFieldLine l) (h2 : ∀ l ∈ fs2, plainFieldLine l) :
    hvsc_stil_parse_entry ("(#1)".toList :: fs1 ++ "(#2)".toList :: fs2) =
      { sid_comment := none,
        blocks := [{ tune := 0, fields := fs1.map lineField },
                   { tune := 2, fields := fs2.map lineField }] } := by
  have hplain_nil : ∀ (fs : List (List Char)) (st : ParserState),
      (∀ l ∈ fs, plainFieldLine l) → 0 < st.tune →
      stil_loop st fs =
        { st with block := { st.block with fields := st.block.fields ++ fs.map lineField } } := by
    intro fs st hp ht
    have := stil_loop_plain fs st [] hp ht
    simpa [stil_loop_nil] using this
  have s1 : ∀ (st : ParserState) (R : List (List Char)),
      stil_step st "(#1)".toList R = ({ st with tune := 1 }, R) := fun _ _ => rfl
  have s2 : ∀ (st : ParserState) (R : List (List Char)),
      stil_step st "(#2)".toList R =
        ({ tune := 2, block := { tune := 2, fields := [] }, sid_comment := st.sid_comment,
           blocks := st.blocks ++ [st.block] }, R) := fun _ _ => rfl
  simp only [hvsc_stil_parse_entry, List.cons_append]
  rw [stil_loop_cons]
  simp only [s1]
  rw [stil_loop_plain fs1 _ _ h1 (by simp)]
  rw [stil_loop_cons]
  simp only [s2]
  rw [hplain_nil fs2 _ h2 (by simp)]
  simp

/-- Witness for C1 (amended) with one Artist line per section. -/
theorem C1_blocks_encounter_order_amended_w :
    (∀ l ∈ [" ARTIST: X".toList], plainFieldLine l) ∧
    (∀ l ∈ [" ARTIST: Y".toList], plainFieldLine l) ∧
    hvsc_stil_parse_entry ("(#1)".toList :: [" ARTIST: X".toList] ++ "(#2)".toList :: [" ARTIST: Y".toList]) =
      { sid_comment := none,
        blocks := [{ tune := 0, fields := [stil_field_new HVSC_FIELD_ARTIST "X".toList (-1) (-1)] },
                   { tune := 2, fields := [stil_field_new HVSC_FIELD_ARTIST "Y".toList (-1) (-1)] }] } :=
  ⟨by decide, by decide,
   (C1_blocks_encounter_order_amended [" ARTIST: X".toList] [" ARTIST: Y".toList]
      (by decide) (by decide)).trans (by decide)⟩

/-!
Allocation-instrumented model of the same parse code, for the failure
claims.  Every `malloc`, `realloc` and `hvsc_strdup` call consults an oracle
(indexed by allocation count); the C checks of each call are mirrored
exactly, including the one `malloc` whose result stil_block_dup does not
check: when it fails while the copied block has fields, the C code writes
through a NULL pointer — undefined behavior, recorded in the `ub` flag —
and when the copied block is empty the failure goes entirely unnoticed.
-/

/-- Allocation bookkeeping: next allocation index, whether any allocation
has failed so far, and whether the run reached undefined behavior. -/
structure AllocState where
  idx : Nat
  oomHit : Bool
  ub : Bool
deriving DecidableEq, Repr

/-- One allocation: succeeds iff the oracle allows this index. -/
def allocOne (oracle : Nat → Bool) (a : AllocState) : Bool × AllocState :=
  if oracle a.idx then (true, { a with idx := a.idx + 1 })
  else (false, { a with idx := a.idx + 1, oomHit := true })

/-- Initial size of a block fields array, from hvsc_defs.h. -/
def HVSC_STIL_BLOCK_FIELDS_INIT : Nat := 32

/-- Initial size of the handle blocks array, from hvsc_defs.h. -/
def HVSC_HANDLE_BLOCKS_INIT : Nat := 32

/-- A STIL block together with its array capacity (fields_max). -/
structure hvsc_stil_blockA where
  tune : Int
  fields : List hvsc_stil_field_t
  fieldsMax : Nat
deriving DecidableEq, Repr

/-- The document members of the handle together with the blocks array
capacity (blocks_max). -/
structure hvsc_stil_handleA where
  sid_comment : Option (List Char)
  blocks : List hvsc_stil_blockA
  blocksMax : Nat
deriving DecidableEq, Repr

/-- Instrumented `stil_field_new`: malloc of the field, then strdup of the
text; either failure frees and yields NULL. -/
def stil_field_newA (oracle : Nat → Bool) (a : AllocState) (ftype : Int)
    (text : List Char) (ts_from ts_to : Int) :
    Option hvsc_stil_field_t × AllocState :=
  let r1 := allocOne oracle a
  if r1.1 then
    let r2 := allocOne oracle r1.2
    if r2.1 then (some (stil_field_new ftype text ts_from ts_to), r2.2)
    else (none, r2.2)
  else (none, r1.2)

/-- Instrumented `stil_block_new`: malloc of the block, then malloc of the
initial fields array; either failure yields NULL. -/
def stil_block_newA (oracle : Nat → Bool) (a : AllocState) :
    Option hvsc_stil_blockA × AllocState :=
  let r1 := allocOne oracle a
  if r1.1 then
    let r2 := allocOne oracle r1.2
    if r2.1 then
      (some { tune := 0, fields := [], fieldsMax := HVSC_STIL_BLOCK_FIELDS_INIT }, r2.2)
    else (none, r2.2)
  else (none, r1.2)

/-- Instrumented per-field copy loop of `stil_block_dup`: each field is
duplicated with stil_field_new; the first failure aborts with NULL. -/
def stil_fields_dupA (oracle : Nat → Bool) :
    AllocState → List hvsc_stil_field_t →
    Option (List hvsc_stil_field_t) × AllocState
  | a, [] => (some [], a)
  | a, f :: fs =>
      let r := stil_field_newA oracle a f.ftype f.text f.timestamp.ts_from f.timestamp.ts_to
      match r.1 with
      | none => (none, r.2)
      | some f2 =>
          let rs := stil_fields_dupA oracle r.2 fs
          match rs.1 with
          | none => (none, rs.2)
          | some fs2 => (some (f2 :: fs2), rs.2)

/-- Instrumented `stil_block_dup`: malloc of the copy (checked), malloc of
the fields array (NOT checked in the C code), then the per-field copy loop.
When the unchecked malloc fails: with fields present the C loop writes
through NULL (undefined behavior, flagged); with no fields the copy is
returned as if nothing happened. -/
def stil_block_dupA (oracle : Nat → Bool) (a : AllocState) (b : hvsc_stil_blockA) :
    Option hvsc_stil_blockA × AllocState :=
  let r1 := allocOne oracle a
  if r1.1 then
    let r2 := allocOne oracle r1.2
    if r2.1 then
      let rs := stil_fields_dupA oracle r2.2 b.fields
      match rs.1 with
      | some fs => (some { tune := b.tune, fields := fs, fieldsMax := b.fieldsMax }, rs.2)
      | none => (none, rs.2)
    else
      if b.fields.isEmpty then
        (some { tune := b.tune, fields := [], fieldsMax := b.fieldsMax }, r2.2)
      else (none, { r2.2 with ub := true })
  else (none, r1.2)

/-- Instrumented `stil_block_add_field`: realloc (doubling) only when the
array is full, then append. -/
def stil_block_add_fieldA (oracle : Nat → Bool) (a : AllocState)
    (b : hvsc_stil_blockA) (f : hvsc_stil_field_t) :
    Bool × hvsc_stil_blockA × AllocState :=
  if b.fieldsMax = b.fields.length then
    let r := allocOne oracle a
    if r.1 then
      (true, { b with fields := b.fields ++ [f], fieldsMax := b.fieldsMax * 2 }, r.2)
    else (false, b, r.2)
  else (true, { b with fields := b.fields ++ [f] }, a)

/-- Instrumented `stil_handle_add_block`: realloc of the blocks array when
full, then a deep copy of the block is appended. -/
def stil_handle_add_blockA (oracle : Nat → Bool) (a : AllocState)
    (h : hvsc_stil_handleA) (b : hvsc_stil_blockA) :
    Bool × hvsc_stil_handleA × AllocState :=
  let grown : Bool × hvsc_stil_handleA × AllocState :=
    if h.blocksMax = h.blocks.length then
      let r := allocOne oracle a
      if r.1 then (true, { h with blocksMax := h.blocksMax * 2 }, r.2)
      else (false, h, r.2)
    else (true, h, a)
  if grown.1 then
    let rd := stil_block_dupA oracle grown.2.2 b
    match rd.1 with
    | some copy => (true, { grown.2.1 with blocks := grown.2.1.blocks ++ [copy] }, rd.2)
    | none => (false, grown.2.1, rd.2)
  else (false, grown.2.1, grown.2.2)

/-- Instrumented continuation loop of `stil_parse_comment`: one realloc per
merged continuation line; a failing realloc frees the comment and yields
NULL. -/
def stil_comment_goA (oracle : Nat → Bool) :
    AllocState → List Char → List (List Char) →
    Option (List Char) × List (List Char) × AllocState
  | a, acc, [] => (some acc, [], a)
  | a, acc, l :: ls =>
      if cStrncmp nineSpaces l 9 = 0 then
        let r := allocOne oracle a
        if r.1 then stil_comment_goA oracle r.2 (acc ++ l.drop 8) ls
        else (none, l :: ls, r.2)
      else (some acc, l :: ls, a)

/-- Instrumented `stil_parse_comment`: strdup of the first line content,
then the continuation loop. -/
def stil_parse_commentA (oracle : Nat → Bool) (a : AllocState) (line : List Char)
    (rest : List (List Char)) :
    Option (List Char) × List (List Char) × AllocState :=
  let r := allocOne oracle a
  if r.1 then stil_comment_goA oracle r.2 (line.drop 9) rest
  else (none, rest, r.2)

/-- Parser state of the instrumented model: tune, working block and the
handle under construction. -/
structure ParserStateA where
  tune : Int
  block : hvsc_stil_blockA
  handle : hvsc_stil_handleA
deriving DecidableEq, Repr

/-- Common tail of the loop body of `hvsc_stil_parse_entry`: with a positive
tune, allocate the field and append it to the working block (either failure
aborts); in the preamble store nothing and promote the block to tune 1. -/
def stil_step_tailA (oracle : Nat → Bool) (a : AllocState) (st : ParserStateA)
    (ftype : Int) (text : List Char) (ts : hvsc_stil_timestamp_t)
    (rest2 : List (List Char)) :
    Bool × ParserStateA × List (List Char) × AllocState :=
  if 0 < st.tune then
    let rf := stil_field_newA oracle a ftype text ts.ts_from ts.ts_to
    match rf.1 with
    | none => (false, st, rest2, rf.2)
    | some f =>
        let rb := stil_block_add_fieldA oracle rf.2 st.block f
        if rb.1 then (true, { st with block := rb.2.1 }, rest2, rb.2.2)
        else (false, st, rest2, rb.2.2)
  else
    (true, { st with tune := 1, block := { st.block with tune := 1 } }, rest2, a)

/-- One iteration of the instrumented main loop, mirroring the C loop body
with its allocation order: marker handling (add block, free, new block),
comment accumulation (with SID-wide comment assignment in the preamble),
TITLE handling, and the common field-append tail. -/
def stil_stepA (oracle : Nat → Bool) (a : AllocState) (st : ParserStateA)
    (line : List Char) (rest : List (List Char)) :
    Bool × ParserStateA × List (List Char) × AllocState :=
  let num := stil_parse_tune_number line
  if 0 < num then
    let st1 := { st with tune := num }
    if 1 < num then
      let r1 := stil_handle_add_blockA oracle a st1.handle st1.block
      if r1.1 then
        let r2 := stil_block_newA oracle r1.2.2
        match r2.1 with
        | some nb =>
            (true, { st1 with handle := r1.2.1, block := { nb with tune := num } }, rest, r2.2)
        | none => (false, { st1 with handle := r1.2.1 }, rest, r2.2)
      else (false, { st1 with handle := r1.2.1 }, rest, r1.2.2)
    else (true, st1, rest, a)
  else
    let ftype := stil_get_field_type line
    if ftype = HVSC_FIELD_COMMENT then
      let rc := stil_parse_commentA oracle a line rest
      match rc.1 with
      | none => (false, st, rc.2.1, rc.2.2)
      | some comment =>
          if st.tune = 0 then
            stil_step_tailA oracle rc.2.2
              { st with handle := { st.handle with sid_comment := some comment } }
              ftype comment ⟨-1, -1⟩ rc.2.1
          else stil_step_tailA oracle rc.2.2 st ftype comment ⟨-1, -1⟩ rc.2.1
    else if ftype = HVSC_FIELD_TITLE then
      let tp := title_line_process line ⟨-1, -1⟩
      stil_step_tailA oracle a st ftype tp.1 tp.2 rest
    else
      stil_step_tailA oracle a st ftype (line.drop 9) ⟨-1, -1⟩ rest

/-- Instrumented main loop with structural fuel (the entry length always
suffices, as every step consumes at least one line). -/
def stil_loopFA (oracle : Nat → Bool) :
    Nat → AllocState → ParserStateA → List (List Char) →
    Bool × ParserStateA × AllocState
  | _, a, st, [] => (true, st, a)
  | 0, a, st, _ :: _ => (true, st, a)
  | fuel + 1, a, st, line :: rest =>
      let r := stil_stepA oracle a st line rest
      if r.1 then stil_loopFA oracle fuel r.2.2.2 r.2.1 r.2.2.1
      else (false, r.2.1, r.2.2.2)

/-- Instrumented `hvsc_stil_parse_entry`: working-block allocation
(stil_parser_init), blocks-array allocation (stil_handle_init_blocks), the
main loop, and the final add of the working block.  Returns the C result
flag, the handle (whose partial blocks survive a failing parse, as in the C
code, until hvsc_stil_close), and the allocation bookkeeping. -/
def hvsc_stil_parse_entry_alloc (oracle : Nat → Bool) (entry : List (List Char)) :
    Bool × hvsc_stil_handleA × AllocState :=
  let a0 : AllocState := { idx := 0, oomHit := false, ub := false }
  let h0 : hvsc_stil_handleA := { sid_comment := none, blocks := [], blocksMax := 0 }
  let rb := stil_block_newA oracle a0
  match rb.1 with
  | none => (false, h0, rb.2)
  | some blk =>
      let ri := allocOne oracle rb.2
      if ri.1 then
        let h1 : hvsc_stil_handleA :=
          { sid_comment := none, blocks := [], blocksMax := HVSC_HANDLE_BLOCKS_INIT }
        let r := stil_loopFA oracle entry.length ri.2
          { tune := 0, block := blk, handle := h1 } entry
        if r.1 then
          let rl := stil_handle_add_blockA oracle r.2.2 r.2.1.handle r.2.1.block
          if rl.1 then (true, rl.2.1, rl.2.2)
          else (false, rl.2.1, rl.2.2)
        else (false, r.2.1.handle, r.2.2)
      else (false, h0, ri.2)

/-- C9: two failing behaviors of the claim.  First, with the oracle failing
exactly at allocation index 4 — the fields-array malloc inside
stil_block_dup, whose result the C code does not check, reached while the
empty preamble block is copied for the `(#2)` marker — the whole parse
STILL RETURNS SUCCESS although an allocation failed.  Second, with a
checked allocation failing later (index 7, the field malloc for the Artist
line), the parse returns failure but the handle still holds the one block
already finalized: the partial block list is not discarded by the parse. -/
theorem C9_oom_ignored :
    ((hvsc_stil_parse_entry_alloc (fun i => !(i == 4)) ["(#2)".toList]).1 = true ∧
     (hvsc_stil_parse_entry_alloc (fun i => !(i == 4)) ["(#2)".toList]).2.2.oomHit = true) ∧
    ((hvsc_stil_parse_entry_alloc (fun i => !(i == 7))
        ["(#2)".toList, " ARTIST: X".toList]).1 = false ∧
     (hvsc_stil_parse_entry_alloc (fun i => !(i == 7))
        ["(#2)".toList, " ARTIST: X".toList]).2.1.blocks.length = 1) := by
  refine ⟨⟨?_, ?_⟩, ?_, ?_⟩ <;> decide

end Hvsc
